import Mathlib

/-!
Verification of the alt-xsrf middleware (src/index.js).

The middleware resolves a per-session secret, issues a fresh token on
`res.locals` and as a cookie, and verifies incoming tokens unless the
request is bypassed by method or by a custom ignore predicate.

The token cryptography (`csrf` package: `secretSync`, `create`, `verify`)
and the session / request / response objects are external collaborators;
they are modelled as explicit data below.  The middleware itself is
translated line by line from `src/index.js`, instrumented with an event
trace that records the externally observable calls in order.
-/

/-- Events observable during one middleware invocation, in call order. -/
inductive Ev where
  | sessionGet (key : String)
  | sessionSet (key val : String)
  | localsSet (tok : String)
  | cookieSet (cname tok : String)
  | ignoreCall
  | getTokenCall
  | verifyCall
  | nextCall
  | nextErrCall (e : String)
  | sendStatus (code : Nat)
deriving Repr, DecidableEq

/-- The session collaborator: a key-value store with injectable read/write
failures (`session.get` / `session.set` completing with an error). -/
structure Session where
  data : List (String × String)
  readErr : Option String
  writeErr : Option String
deriving Repr, DecidableEq

/-- `session.set(key, value)`: store a value under a key. -/
def Session.setVal (s : Session) (k v : String) : Session :=
  { s with data := (k, v) :: s.data }

/-- The request collaborator: HTTP method and headers; `req.get(name)` is
Express's case-insensitive header lookup. -/
structure Req where
  method : String
  headers : List (String × String)
deriving Repr, DecidableEq

/-- JS `toLowerCase`, character-wise (ASCII, as used on HTTP methods and
header names). -/
def jsToLower (s : String) : String := String.mk (s.data.map Char.toLower)

/-- `req.get(name)`: case-insensitive header lookup (Express semantics). -/
def Req.get (r : Req) (nm : String) : Option String :=
  (r.headers.find? (fun p => jsToLower p.fst == jsToLower nm)).map Prod.snd

/-- The response collaborator: the rendering-context field
`res.locals.xsrfToken` and the cookies set on the response. -/
structure Res where
  locals : Option String := none
  cookies : List (String × String) := []
deriving Repr, DecidableEq

/-- The cryptography collaborator (`csrf` package): secret generation,
token creation, token verification.  `verify` receives the extracted
token, which may be missing (`none`, i.e. `undefined` in JS). -/
structure Crypto where
  secretSync : String
  create : String → String
  verify : String → Option String → Bool

/-- The axioms assumed of the cryptography collaborator: a token created
from a secret verifies against that secret; a missing or empty token never
verifies; a token of a different secret never verifies; generated secrets
are truthy (non-empty). -/
def Crypto.Sound (c : Crypto) : Prop :=
  (∀ s, c.verify s (some (c.create s)) = true) ∧
  (∀ s, c.verify s none = false) ∧
  (∀ s, c.verify s (some "") = false) ∧
  (∀ s t, s ≠ t → c.verify s (some (c.create t)) = false) ∧
  c.secretSync ≠ ""

/-- The configuration resolved at construction time (the closure variables
`IGNORED_METHODS`, `COOKIE_NAME`, `HEADER_NAME`, `SESSION_KEY`, `ignore`,
`getToken` of `module.exports`). -/
structure Config where
  IGNORED_METHODS : List String
  COOKIE_NAME : String
  HEADER_NAME : String
  SESSION_KEY : String
  ignore : Option (Req → Res → Bool)
  getToken : Req → Res → Option String

/-- A JS value supplied for a string option: absent (`undefined`/`null`)
or a string. -/
inductive JsStr where
  | undef
  | str (s : String)
deriving Repr, DecidableEq

/-- A JS value supplied for an array option: absent or an array (arrays
are always truthy in JS, even when empty). -/
inductive JsArr where
  | undef
  | arr (a : List String)
deriving Repr, DecidableEq

/-- A JS value supplied for a function option: absent, present but not a
function (`typeof v != 'function'`), or a function. -/
inductive JsFun (α : Type) where
  | undef
  | notFun
  | func (f : α)

/-- JS `x || d` for a string option: falsy (`undefined` or `''`) picks the
default. -/
def JsStr.orDefault : JsStr → String → String
  | JsStr.undef, d => d
  | JsStr.str s, d => if s == "" then d else s

/-- The `options` argument of `module.exports`; every field is optional. -/
structure Options where
  ignoredMethods : JsArr := JsArr.undef
  cookieName : JsStr := JsStr.undef
  headerName : JsStr := JsStr.undef
  sessionKey : JsStr := JsStr.undef
  ignore : JsFun (Req → Res → Bool) := JsFun.undef
  getToken : JsFun (Req → Res → Option String) := JsFun.undef

/-- Construction-time option resolution, from `src/index.js` lines 50-64:
`||`-defaulting for the array and string options, `typeof == 'function'`
checks for `ignore` and `getToken`, with the default token getter reading
the resolved header name from the request. -/
def resolveOptions (options : Options) : Config :=
  let IGNORED_METHODS := match options.ignoredMethods with
    | JsArr.undef => ["get", "head", "options"]
    | JsArr.arr a => a
  let COOKIE_NAME := JsStr.orDefault options.cookieName "XSRF-TOKEN"
  let HEADER_NAME := JsStr.orDefault options.headerName "X-XSRF-TOKEN"
  let SESSION_KEY := JsStr.orDefault options.sessionKey "XSRF-SECRET"
  let ignore : Option (Req → Res → Bool) := match options.ignore with
    | JsFun.func f => some f
    | _ => none
  let getToken : Req → Res → Option String := match options.getToken with
    | JsFun.func f => f
    | _ => fun req _ => req.get HEADER_NAME
  { IGNORED_METHODS := IGNORED_METHODS
    COOKIE_NAME := COOKIE_NAME
    HEADER_NAME := HEADER_NAME
    SESSION_KEY := SESSION_KEY
    ignore := ignore
    getToken := getToken }

/-- `obtainSecret` (src/index.js lines 97-109): read the secret at the
session key; propagate a read error; return a truthy stored value
unchanged; otherwise generate a fresh secret with `secretSync`, write it,
propagating a write error, else return it.  The second component is the
trace of session-store calls made. -/
def obtainSecret (crypto : Crypto) (SESSION_KEY : String) (sess : Session) :
    Except String (String × Session) × List Ev :=
  match sess.readErr with
  | some e => (Except.error e, [Ev.sessionGet SESSION_KEY])
  | none =>
    match List.lookup SESSION_KEY sess.data with
    | some secret =>
      if secret != "" then
        (Except.ok (secret, sess), [Ev.sessionGet SESSION_KEY])
      else
        let fresh := crypto.secretSync
        match sess.writeErr with
        | some e =>
          (Except.error e, [Ev.sessionGet SESSION_KEY, Ev.sessionSet SESSION_KEY fresh])
        | none =>
          (Except.ok (fresh, sess.setVal SESSION_KEY fresh),
           [Ev.sessionGet SESSION_KEY, Ev.sessionSet SESSION_KEY fresh])
    | none =>
      let fresh := crypto.secretSync
      match sess.writeErr with
      | some e =>
        (Except.error e, [Ev.sessionGet SESSION_KEY, Ev.sessionSet SESSION_KEY fresh])
      | none =>
        (Except.ok (fresh, sess.setVal SESSION_KEY fresh),
         [Ev.sessionGet SESSION_KEY, Ev.sessionSet SESSION_KEY fresh])

/-- How one middleware invocation ended: continuation called (`next()`),
continuation called with an error (`next(err)`), or response terminated
with a status code (`res.sendStatus`). -/
inductive Outcome where
  | next
  | nextErr (e : String)
  | status (code : Nat)
deriving Repr, DecidableEq

/-- The observable result of one middleware invocation. -/
structure MwResult where
  outcome : Outcome
  res : Res
  session : Session
  trace : List Ev
deriving Repr, DecidableEq

/-- The response state right after token issuance (lines 71-75):
`res.locals.xsrfToken` assigned, then the cookie set. -/
def issuedRes (cfg : Config) (crypto : Crypto) (secret : String) : Res :=
  { locals := some (crypto.create secret)
    cookies := [(cfg.COOKIE_NAME, crypto.create secret)] }

/-- The validation tail of the middleware (lines 82-86): extract the
token with `getToken`, check it with `csrfTokens.verify`, call `next()`
on success, else `res.sendStatus(412)`. -/
def verifyStep (cfg : Config) (crypto : Crypto) (req : Req) (res : Res)
    (secret : String) (sess : Session) (tr : List Ev) : MwResult :=
  let tok := cfg.getToken req res
  let tr2 := tr ++ [Ev.getTokenCall, Ev.verifyCall]
  if crypto.verify secret tok then
    { outcome := Outcome.next, res := res, session := sess, trace := tr2 ++ [Ev.nextCall] }
  else
    { outcome := Outcome.status 412, res := res, session := sess,
      trace := tr2 ++ [Ev.sendStatus 412] }

/-- The middleware body (src/index.js lines 66-89): obtain the secret
(propagating failure via `next(err)`), create a token, publish it on
`res.locals` and as a cookie, then bypass on ignored method, then on the
custom ignore predicate, and finally validate the extracted token. -/
def middleware (cfg : Config) (crypto : Crypto) (req : Req) (sess : Session) : MwResult :=
  match obtainSecret crypto cfg.SESSION_KEY sess with
  | (Except.error e, tr) =>
    { outcome := Outcome.nextErr e, res := {}, session := sess,
      trace := tr ++ [Ev.nextErrCall e] }
  | (Except.ok (xsrfSecret, sess1), tr0) =>
    let xsrfToken := crypto.create xsrfSecret
    let res1 := issuedRes cfg crypto xsrfSecret
    let tr1 := tr0 ++ [Ev.localsSet xsrfToken, Ev.cookieSet cfg.COOKIE_NAME xsrfToken]
    if cfg.IGNORED_METHODS.contains (jsToLower req.method) then
      { outcome := Outcome.next, res := res1, session := sess1, trace := tr1 ++ [Ev.nextCall] }
    else
      match cfg.ignore with
      | some p =>
        if p req res1 then
          { outcome := Outcome.next, res := res1, session := sess1,
            trace := tr1 ++ [Ev.ignoreCall, Ev.nextCall] }
        else
          verifyStep cfg crypto req res1 xsrfSecret sess1 (tr1 ++ [Ev.ignoreCall])
      | none => verifyStep cfg crypto req res1 xsrfSecret sess1 tr1

/-- Number of session writes recorded in a trace. -/
def countSets (tr : List Ev) : Nat :=
  (tr.filter fun e => match e with
    | Ev.sessionSet _ _ => true
    | _ => false).length

/-- A concrete cryptography collaborator for instantiating the axioms:
a token is its secret tagged with a leading marker character. -/
def exCrypto : Crypto :=
  { secretSync := "sec"
    create := fun s => String.mk ('t' :: s.data)
    verify := fun s t => t == some (String.mk ('t' :: s.data)) }

theorem exCrypto_sound : Crypto.Sound exCrypto := by
  refine ⟨fun s => by simp [exCrypto], fun s => rfl, fun s => ?_, fun s t h => ?_, by decide⟩
  · show (some "" == some (String.mk ('t' :: s.data))) = false
    rw [beq_eq_false_iff_ne]
    intro hEq
    have h2 : ("" : String) = String.mk ('t' :: s.data) := Option.some.inj hEq
    have h3 : ([] : List Char) = 't' :: s.data := congrArg String.data h2
    exact List.noConfusion h3
  · show (some (String.mk ('t' :: t.data)) == some (String.mk ('t' :: s.data))) = false
    rw [beq_eq_false_iff_ne]
    intro hEq
    have h2 : String.mk ('t' :: t.data) = String.mk ('t' :: s.data) := Option.some.inj hEq
    have h3 : 't' :: t.data = 't' :: s.data := congrArg String.data h2
    have h4 : t.data = s.data := (List.cons.inj h3).2
    exact h (String.ext h4).symm

/-- Read failure: `obtainSecret` propagates the read error and performs
no write. -/
theorem obtainSecret_readErr (crypto : Crypto) (k : String) (sess : Session) (e : String)
    (hr : sess.readErr = some e) :
    obtainSecret crypto k sess = (Except.error e, [Ev.sessionGet k]) := by
  unfold obtainSecret
  rw [hr]

/-- Truthy stored secret: `obtainSecret` returns it unchanged, session
untouched, no write. -/
theorem obtainSecret_stored (crypto : Crypto) (k : String) (sess : Session) (v : String)
    (hr : sess.readErr = none) (hl : List.lookup k sess.data = some v) (hv : v ≠ "") :
    obtainSecret crypto k sess = (Except.ok (v, sess), [Ev.sessionGet k]) := by
  unfold obtainSecret
  rw [hr]
  simp only [hl, hv, bne_iff_ne, ne_eq, not_false_eq_true, if_true]

/-- Absent secret, write succeeding: a fresh secret is generated, written
once, and returned. -/
theorem obtainSecret_fresh (crypto : Crypto) (k : String) (sess : Session)
    (hr : sess.readErr = none) (hl : List.lookup k sess.data = none)
    (hw : sess.writeErr = none) :
    obtainSecret crypto k sess =
      (Except.ok (crypto.secretSync, sess.setVal k crypto.secretSync),
       [Ev.sessionGet k, Ev.sessionSet k crypto.secretSync]) := by
  unfold obtainSecret
  rw [hr, hl, hw]

/-- Falsy (empty-string) stored secret: treated as absent, a fresh secret
is generated and written, overwriting the empty value. -/
theorem obtainSecret_falsyStored (crypto : Crypto) (k : String) (sess : Session)
    (hr : sess.readErr = none) (hl : List.lookup k sess.data = some "")
    (hw : sess.writeErr = none) :
    obtainSecret crypto k sess =
      (Except.ok (crypto.secretSync, sess.setVal k crypto.secretSync),
       [Ev.sessionGet k, Ev.sessionSet k crypto.secretSync]) := by
  unfold obtainSecret
  rw [hr, hl, hw]
  simp

/-- Absent secret, write failing: the write error is propagated. -/
theorem obtainSecret_writeErr (crypto : Crypto) (k : String) (sess : Session) (e : String)
    (hr : sess.readErr = none) (hl : List.lookup k sess.data = none)
    (hw : sess.writeErr = some e) :
    obtainSecret crypto k sess =
      (Except.error e, [Ev.sessionGet k, Ev.sessionSet k crypto.secretSync]) := by
  unfold obtainSecret
  rw [hr, hl, hw]

/-- Secret-resolution failure: the middleware calls the continuation with
the error, touching neither the response nor the session. -/
theorem middleware_err (cfg : Config) (crypto : Crypto) (req : Req) (sess : Session)
    (e : String) (tr0 : List Ev)
    (hsec : obtainSecret crypto cfg.SESSION_KEY sess = (Except.error e, tr0)) :
    middleware cfg crypto req sess =
      { outcome := Outcome.nextErr e, res := {}, session := sess,
        trace := tr0 ++ [Ev.nextErrCall e] } := by
  unfold middleware
  rw [hsec]

/-- Method bypass: with the secret resolved and the lowercased request
method in the configured list, the middleware publishes the token and
calls the continuation at once. -/
theorem middleware_bypass_method (cfg : Config) (crypto : Crypto) (req : Req) (sess : Session)
    (s : String) (sess1 : Session) (tr0 : List Ev)
    (hsec : obtainSecret crypto cfg.SESSION_KEY sess = (Except.ok (s, sess1), tr0))
    (hm : cfg.IGNORED_METHODS.contains (jsToLower req.method) = true) :
    middleware cfg crypto req sess =
      { outcome := Outcome.next, res := issuedRes cfg crypto s, session := sess1,
        trace := tr0 ++ [Ev.localsSet (crypto.create s),
                         Ev.cookieSet cfg.COOKIE_NAME (crypto.create s), Ev.nextCall] } := by
  unfold middleware
  rw [hsec]
  have hm2 : jsToLower req.method ∈ cfg.IGNORED_METHODS := by simpa using hm
  simp [hm2]

/-- Predicate bypass: with the secret resolved, the method not ignored,
and the configured predicate returning truthy, the middleware calls the
continuation after evaluating the predicate. -/
theorem middleware_bypass_ignore (cfg : Config) (crypto : Crypto) (req : Req) (sess : Session)
    (s : String) (sess1 : Session) (tr0 : List Ev) (p : Req → Res → Bool)
    (hsec : obtainSecret crypto cfg.SESSION_KEY sess = (Except.ok (s, sess1), tr0))
    (hm : cfg.IGNORED_METHODS.contains (jsToLower req.method) = false)
    (hp : cfg.ignore = some p)
    (hpt : p req (issuedRes cfg crypto s) = true) :
    middleware cfg crypto req sess =
      { outcome := Outcome.next, res := issuedRes cfg crypto s, session := sess1,
        trace := tr0 ++ [Ev.localsSet (crypto.create s),
                         Ev.cookieSet cfg.COOKIE_NAME (crypto.create s),
                         Ev.ignoreCall, Ev.nextCall] } := by
  unfold middleware
  rw [hsec]
  have hm2 : jsToLower req.method ∉ cfg.IGNORED_METHODS := by simpa using hm
  simp [hm2, hp, hpt]

/-- No bypass: with the secret resolved, the method not ignored and no
predicate matching, the middleware proceeds to token validation. -/
theorem middleware_validate (cfg : Config) (crypto : Crypto) (req : Req) (sess : Session)
    (s : String) (sess1 : Session) (tr0 : List Ev)
    (hsec : obtainSecret crypto cfg.SESSION_KEY sess = (Except.ok (s, sess1), tr0))
    (hm : cfg.IGNORED_METHODS.contains (jsToLower req.method) = false)
    (hi : ∀ p, cfg.ignore = some p → p req (issuedRes cfg crypto s) = false) :
    middleware cfg crypto req sess =
      verifyStep cfg crypto req (issuedRes cfg crypto s) s sess1
        (tr0 ++ [Ev.localsSet (crypto.create s),
                 Ev.cookieSet cfg.COOKIE_NAME (crypto.create s)] ++
         (if cfg.ignore.isSome then [Ev.ignoreCall] else [])) := by
  unfold middleware
  rw [hsec]
  have hm2 : jsToLower req.method ∉ cfg.IGNORED_METHODS := by simpa using hm
  rcases hp : cfg.ignore with _ | p
  · simp [hm2, hp]
  · simp [hm2, hp, hi p hp]

/-- The trace produced by `obtainSecret` holds only session-store events:
the read, and possibly one write of the freshly generated secret. -/
theorem obtainSecret_trace_shape (crypto : Crypto) (k : String) (sess : Session) :
    (obtainSecret crypto k sess).2 = [Ev.sessionGet k] ∨
    (obtainSecret crypto k sess).2 =
      [Ev.sessionGet k, Ev.sessionSet k crypto.secretSync] := by
  unfold obtainSecret
  rcases hr : sess.readErr with _ | e
  · rcases hl : List.lookup k sess.data with _ | v
    · rcases hw : sess.writeErr with _ | e2 <;> simp
    · rcases hw : sess.writeErr with _ | e2 <;> by_cases hv : v = "" <;> simp [hv]
  · simp

/-- Inversion of a successful secret resolution: either a truthy stored
value was returned unchanged, or a fresh secret was generated and written
because the slot was absent or falsy. -/
theorem obtainSecret_ok_inv (crypto : Crypto) (k : String) (sess : Session)
    (s : String) (sess1 : Session) (tr : List Ev)
    (h : obtainSecret crypto k sess = (Except.ok (s, sess1), tr)) :
    sess.readErr = none ∧
    ((List.lookup k sess.data = some s ∧ s ≠ "" ∧ sess1 = sess ∧ tr = [Ev.sessionGet k]) ∨
     (s = crypto.secretSync ∧ sess1 = sess.setVal k s ∧ sess.writeErr = none ∧
      tr = [Ev.sessionGet k, Ev.sessionSet k s] ∧
      (List.lookup k sess.data = none ∨ List.lookup k sess.data = some ""))) := by
  rcases hr : sess.readErr with _ | e
  · rcases hl : List.lookup k sess.data with _ | v
    · rcases hw : sess.writeErr with _ | e2
      · rw [obtainSecret_fresh crypto k sess hr hl hw] at h
        simp only [Prod.mk.injEq, Except.ok.injEq] at h
        obtain ⟨⟨h1, h2⟩, h3⟩ := h
        subst h1; subst h2; subst h3
        exact ⟨rfl, Or.inr ⟨rfl, rfl, rfl, rfl, Or.inl rfl⟩⟩
      · rw [obtainSecret_writeErr crypto k sess e2 hr hl hw] at h
        exact absurd h (by simp)
    · by_cases hv : v = ""
      · subst hv
        rcases hw : sess.writeErr with _ | e2
        · rw [obtainSecret_falsyStored crypto k sess hr hl hw] at h
          simp only [Prod.mk.injEq, Except.ok.injEq] at h
          obtain ⟨⟨h1, h2⟩, h3⟩ := h
          subst h1; subst h2; subst h3
          exact ⟨rfl, Or.inr ⟨rfl, rfl, rfl, rfl, Or.inr rfl⟩⟩
        · unfold obtainSecret at h
          rw [hr, hl, hw] at h
          simp at h
      · rw [obtainSecret_stored crypto k sess v hr hl hv] at h
        simp only [Prod.mk.injEq, Except.ok.injEq] at h
        obtain ⟨⟨h1, h2⟩, h3⟩ := h
        subst h1; subst h2; subst h3
        exact ⟨rfl, Or.inl ⟨rfl, hv, rfl, rfl⟩⟩
  · rw [obtainSecret_readErr crypto k sess e hr] at h
    exact absurd h (by simp)

theorem countSets_append (a b : List Ev) :
    countSets (a ++ b) = countSets a + countSets b := by
  simp [countSets, List.filter_append]

/-- All session writes of one invocation happen inside secret resolution:
the rest of the middleware never writes to the session. -/
theorem middleware_countSets (cfg : Config) (crypto : Crypto) (req : Req) (sess : Session) :
    countSets (middleware cfg crypto req sess).trace =
      countSets (obtainSecret crypto cfg.SESSION_KEY sess).2 := by
  unfold middleware verifyStep
  rcases ho : obtainSecret crypto cfg.SESSION_KEY sess with ⟨r, tr⟩
  rcases r with e | ⟨s, sess1⟩
  · simp [countSets_append, countSets]
  · simp only []
    split
    · simp [countSets_append, countSets]
    · split
      · split
        · simp [countSets_append, countSets]
        · split <;> simp [countSets_append, countSets]
      · split <;> simp [countSets_append, countSets]

/-- On successful secret resolution the middleware returns the session
produced by the resolution, whatever the verification outcome. -/
theorem middleware_session (cfg : Config) (crypto : Crypto) (req : Req) (sess : Session)
    (s : String) (sess1 : Session) (tr0 : List Ev)
    (hsec : obtainSecret crypto cfg.SESSION_KEY sess = (Except.ok (s, sess1), tr0)) :
    (middleware cfg crypto req sess).session = sess1 := by
  unfold middleware verifyStep
  rw [hsec]
  simp only []
  split
  · rfl
  · split
    · split
      · rfl
      · split <;> rfl
    · split <;> rfl

theorem lookup_setVal (sess : Session) (k v : String) :
    List.lookup k (sess.setVal k v).data = some v := by
  simp [Session.setVal, List.lookup]

theorem verifyStep_outcome (cfg : Config) (crypto : Crypto) (req : Req) (res : Res)
    (s : String) (sess : Session) (tr : List Ev) :
    (verifyStep cfg crypto req res s sess tr).outcome =
      if crypto.verify s (cfg.getToken req res) then Outcome.next else Outcome.status 412 := by
  unfold verifyStep
  split <;> simp_all

/-- On successful secret resolution the response always carries the token
issued from the resolved secret, whatever branch is taken afterwards. -/
theorem middleware_res_ok (cfg : Config) (crypto : Crypto) (req : Req) (sess : Session)
    (s : String) (sess1 : Session) (tr0 : List Ev)
    (hsec : obtainSecret crypto cfg.SESSION_KEY sess = (Except.ok (s, sess1), tr0)) :
    (middleware cfg crypto req sess).res = issuedRes cfg crypto s := by
  unfold middleware verifyStep
  rw [hsec]
  simp only []
  split
  · rfl
  · split
    · split
      · rfl
      · split <;> rfl
    · split <;> rfl

/-- On successful secret resolution the trace starts with the resolution
events followed immediately by the two publication events, in order, and
only then the bypass/verification events. -/
theorem middleware_trace_prefix (cfg : Config) (crypto : Crypto) (req : Req) (sess : Session)
    (s : String) (sess1 : Session) (tr0 : List Ev)
    (hsec : obtainSecret crypto cfg.SESSION_KEY sess = (Except.ok (s, sess1), tr0)) :
    ∃ rest, (middleware cfg crypto req sess).trace =
      tr0 ++ [Ev.localsSet (crypto.create s),
              Ev.cookieSet cfg.COOKIE_NAME (crypto.create s)] ++ rest := by
  unfold middleware verifyStep
  rw [hsec]
  simp only []
  split
  · exact ⟨[Ev.nextCall], by simp⟩
  · split
    · split
      · exact ⟨[Ev.ignoreCall, Ev.nextCall], by simp⟩
      · split
        · exact ⟨[Ev.ignoreCall, Ev.getTokenCall, Ev.verifyCall, Ev.nextCall], by simp⟩
        · exact ⟨[Ev.ignoreCall, Ev.getTokenCall, Ev.verifyCall, Ev.sendStatus 412], by simp⟩
    · split
      · exact ⟨[Ev.getTokenCall, Ev.verifyCall, Ev.nextCall], by simp⟩
      · exact ⟨[Ev.getTokenCall, Ev.verifyCall, Ev.sendStatus 412], by simp⟩

theorem orDefault_ne_empty (x : JsStr) (d : String) (hd : d ≠ "") :
    JsStr.orDefault x d ≠ "" := by
  rcases x with _ | s
  · exact hd
  · unfold JsStr.orDefault
    by_cases hs : s = "" <;> simp [hs, hd]

/-- The default configuration, and fixture request/session values used to
instantiate the claims on concrete inputs. -/
def exCfg : Config := resolveOptions {}

def exSess : Session :=
  { data := [("XSRF-SECRET", "sec0")], readErr := none, writeErr := none }

def exSessEmpty : Session := { data := [], readErr := none, writeErr := none }

def exReqOk : Req := { method := "post", headers := [("X-XSRF-TOKEN", "tsec0")] }

def exReqNoTok : Req := { method := "post", headers := [] }

def exReqGet : Req := { method := "GeT", headers := [] }

theorem exCfg_ignore : exCfg.ignore = none := rfl

/-- Claim C5: secret resolution reads the configured session key; a read
error is propagated unmasked with no write performed; a truthy stored
value is returned unchanged with no write; an absent value triggers
synchronous generation of a fresh secret and one write, whose own error
is propagated, and otherwise the fresh secret is returned. -/
theorem claim_C5_resolution_algorithm (crypto : Crypto) (k : String) (sess : Session) :
    (∀ e, sess.readErr = some e →
       obtainSecret crypto k sess = (Except.error e, [Ev.sessionGet k])) ∧
    (∀ v, sess.readErr = none → List.lookup k sess.data = some v → v ≠ "" →
       obtainSecret crypto k sess = (Except.ok (v, sess), [Ev.sessionGet k])) ∧
    (sess.readErr = none → List.lookup k sess.data = none →
       (∀ e, sess.writeErr = some e →
          obtainSecret crypto k sess =
            (Except.error e, [Ev.sessionGet k, Ev.sessionSet k crypto.secretSync])) ∧
       (sess.writeErr = none →
          obtainSecret crypto k sess =
            (Except.ok (crypto.secretSync, sess.setVal k crypto.secretSync),
             [Ev.sessionGet k, Ev.sessionSet k crypto.secretSync]))) := by
  refine ⟨?_, ?_, ?_⟩
  · intro e hr
    exact obtainSecret_readErr crypto k sess e hr
  · intro v hr hl hv
    exact obtainSecret_stored crypto k sess v hr hl hv
  · intro hr hl
    exact ⟨fun e hw => obtainSecret_writeErr crypto k sess e hr hl hw,
           fun hw => obtainSecret_fresh crypto k sess hr hl hw⟩

theorem claim_C5_resolution_algorithm_witness :
    obtainSecret exCrypto "XSRF-SECRET" exSessEmpty =
      (Except.ok ("sec", exSessEmpty.setVal "XSRF-SECRET" "sec"),
       [Ev.sessionGet "XSRF-SECRET", Ev.sessionSet "XSRF-SECRET" "sec"]) :=
  ((claim_C5_resolution_algorithm exCrypto "XSRF-SECRET" exSessEmpty).2.2 rfl rfl).2 rfl

/-- Claim C8: secret resolution is idempotent: a second resolution on the
session produced by a successful first resolution returns the same secret
and leaves the session unchanged. -/
theorem claim_C8_idempotent (crypto : Crypto) (hc : Crypto.Sound crypto)
    (k : String) (sess sess1 : Session) (s : String) (tr : List Ev)
    (h : obtainSecret crypto k sess = (Except.ok (s, sess1), tr)) :
    obtainSecret crypto k sess1 = (Except.ok (s, sess1), [Ev.sessionGet k]) := by
  obtain ⟨hr, hcase⟩ := obtainSecret_ok_inv crypto k sess s sess1 tr h
  rcases hcase with ⟨hl, hs, hss, htr⟩ | ⟨hgen, hss, hw, htr, hl⟩
  · rw [hss]
    exact obtainSecret_stored crypto k sess s hr hl hs
  · rw [hss]
    refine obtainSecret_stored crypto k (sess.setVal k s) s hr (lookup_setVal sess k s) ?_
    rw [hgen]
    exact hc.2.2.2.2

theorem claim_C8_idempotent_witness :
    obtainSecret exCrypto "XSRF-SECRET" (exSessEmpty.setVal "XSRF-SECRET" "sec") =
      (Except.ok ("sec", exSessEmpty.setVal "XSRF-SECRET" "sec"), [Ev.sessionGet "XSRF-SECRET"]) :=
  claim_C8_idempotent exCrypto exCrypto_sound "XSRF-SECRET" exSessEmpty
    (exSessEmpty.setVal "XSRF-SECRET" "sec") "sec"
    [Ev.sessionGet "XSRF-SECRET", Ev.sessionSet "XSRF-SECRET" "sec"] rfl

/-- Claim C9: a falsy configured value for cookieName, headerName,
sessionKey or ignoredMethods is replaced by its documented default, so an
empty-string name can never be configured; a non-empty string, or a
supplied array, is used as given. -/
theorem claim_C9_falsy_defaults (o : Options) :
    ((o.cookieName = JsStr.undef ∨ o.cookieName = JsStr.str "") →
       (resolveOptions o).COOKIE_NAME = "XSRF-TOKEN") ∧
    (∀ s, s ≠ "" → o.cookieName = JsStr.str s → (resolveOptions o).COOKIE_NAME = s) ∧
    ((o.headerName = JsStr.undef ∨ o.headerName = JsStr.str "") →
       (resolveOptions o).HEADER_NAME = "X-XSRF-TOKEN") ∧
    (∀ s, s ≠ "" → o.headerName = JsStr.str s → (resolveOptions o).HEADER_NAME = s) ∧
    ((o.sessionKey = JsStr.undef ∨ o.sessionKey = JsStr.str "") →
       (resolveOptions o).SESSION_KEY = "XSRF-SECRET") ∧
    (∀ s, s ≠ "" → o.sessionKey = JsStr.str s → (resolveOptions o).SESSION_KEY = s) ∧
    (o.ignoredMethods = JsArr.undef →
       (resolveOptions o).IGNORED_METHODS = ["get", "head", "options"]) ∧
    (∀ a, o.ignoredMethods = JsArr.arr a → (resolveOptions o).IGNORED_METHODS = a) ∧
    (resolveOptions o).COOKIE_NAME ≠ "" ∧
    (resolveOptions o).HEADER_NAME ≠ "" ∧
    (resolveOptions o).SESSION_KEY ≠ "" := by
  refine ⟨?_, ?_, ?_, ?_, ?_, ?_, ?_, ?_, ?_, ?_, ?_⟩
  · rintro (h | h) <;> simp [resolveOptions, h, JsStr.orDefault]
  · intro s hs h
    simp [resolveOptions, h, JsStr.orDefault, hs]
  · rintro (h | h) <;> simp [resolveOptions, h, JsStr.orDefault]
  · intro s hs h
    simp [resolveOptions, h, JsStr.orDefault, hs]
  · rintro (h | h) <;> simp [resolveOptions, h, JsStr.orDefault]
  · intro s hs h
    simp [resolveOptions, h, JsStr.orDefault, hs]
  · intro h
    simp [resolveOptions, h]
  · intro a h
    simp [resolveOptions, h]
  · exact orDefault_ne_empty o.cookieName "XSRF-TOKEN" (by decide)
  · exact orDefault_ne_empty o.headerName "X-XSRF-TOKEN" (by decide)
  · exact orDefault_ne_empty o.sessionKey "XSRF-SECRET" (by decide)

theorem claim_C9_falsy_defaults_witness :
    (resolveOptions { cookieName := JsStr.str "" }).COOKIE_NAME = "XSRF-TOKEN" :=
  (claim_C9_falsy_defaults { cookieName := JsStr.str "" }).1 (Or.inr rfl)

/-- Claim C10: a non-function value supplied for `ignore` or `getToken`
is silently discarded: the ignore predicate is treated as absent and the
token getter falls back to reading the configured header, exactly as when
the option is not supplied at all. -/
theorem claim_C10_nonfunction_options (o : Options) :
    ((o.ignore = JsFun.undef ∨ o.ignore = JsFun.notFun) → (resolveOptions o).ignore = none) ∧
    ((o.getToken = JsFun.undef ∨ o.getToken = JsFun.notFun) →
       (resolveOptions o).getToken = fun req _ => req.get (resolveOptions o).HEADER_NAME) ∧
    (∀ f, o.ignore = JsFun.func f → (resolveOptions o).ignore = some f) ∧
    (∀ g, o.getToken = JsFun.func g → (resolveOptions o).getToken = g) ∧
    resolveOptions { o with ignore := JsFun.notFun } =
      resolveOptions { o with ignore := JsFun.undef } ∧
    resolveOptions { o with getToken := JsFun.notFun } =
      resolveOptions { o with getToken := JsFun.undef } := by
  refine ⟨?_, ?_, ?_, ?_, rfl, rfl⟩
  · rintro (h | h) <;> simp [resolveOptions, h]
  · rintro (h | h) <;> simp [resolveOptions, h]
  · intro f h
    simp [resolveOptions, h]
  · intro g h
    simp [resolveOptions, h]

theorem claim_C10_nonfunction_options_witness :
    (resolveOptions { ignore := JsFun.notFun }).ignore = none :=
  (claim_C10_nonfunction_options { ignore := JsFun.notFun }).1 (Or.inr rfl)

theorem verifyStep_trace (cfg : Config) (crypto : Crypto) (req : Req) (res : Res)
    (s : String) (sess : Session) (tr : List Ev) :
    (verifyStep cfg crypto req res s sess tr).trace =
      tr ++ [Ev.getTokenCall, Ev.verifyCall] ++
      (if crypto.verify s (cfg.getToken req res) then [Ev.nextCall]
       else [Ev.sendStatus 412]) := by
  unfold verifyStep
  split <;> simp_all

/-- Claim C1: on a request requiring verification the continuation runs
exactly when the collaborator's verify accepts the extracted token against
the session's current secret; a token issued from that secret is accepted,
while a missing token or a token of a different secret ends the request
with status 412. -/
theorem claim_C1_verification_gate (crypto : Crypto) (cfg : Config) (req : Req) (sess : Session)
    (s : String) (sess1 : Session) (tr0 : List Ev)
    (hc : Crypto.Sound crypto)
    (hsec : obtainSecret crypto cfg.SESSION_KEY sess = (Except.ok (s, sess1), tr0))
    (hm : cfg.IGNORED_METHODS.contains (jsToLower req.method) = false)
    (hi : ∀ p, cfg.ignore = some p → p req (issuedRes cfg crypto s) = false) :
    ((middleware cfg crypto req sess).outcome = Outcome.next ↔
       crypto.verify s (cfg.getToken req (issuedRes cfg crypto s)) = true) ∧
    (cfg.getToken req (issuedRes cfg crypto s) = some (crypto.create s) →
       (middleware cfg crypto req sess).outcome = Outcome.next) ∧
    (cfg.getToken req (issuedRes cfg crypto s) = none →
       (middleware cfg crypto req sess).outcome = Outcome.status 412) ∧
    (∀ t, t ≠ s → cfg.getToken req (issuedRes cfg crypto s) = some (crypto.create t) →
       (middleware cfg crypto req sess).outcome = Outcome.status 412) := by
  obtain ⟨hv1, hv2, hv3, hv4, hv5⟩ := hc
  rw [middleware_validate cfg crypto req sess s sess1 tr0 hsec hm hi, verifyStep_outcome]
  refine ⟨?_, ?_, ?_, ?_⟩
  · cases hvb : crypto.verify s (cfg.getToken req (issuedRes cfg crypto s)) <;> simp [hvb]
  · intro hext
    rw [hext, hv1 s]
    simp
  · intro hext
    rw [hext, hv2 s]
    simp
  · intro t ht hext
    rw [hext, hv4 s t (Ne.symm ht)]
    simp

theorem claim_C1_verification_gate_witness :
    (middleware exCfg exCrypto exReqOk exSess).outcome = Outcome.next :=
  (claim_C1_verification_gate exCrypto exCfg exReqOk exSess "sec0" exSess
    [Ev.sessionGet "XSRF-SECRET"] exCrypto_sound rfl rfl
    (fun p hp => by rw [exCfg_ignore] at hp; exact Option.noConfusion hp)).2.1 rfl

/-- Claim C6: on a non-bypassed request any verification failure — a
missing token, an empty token, or a cryptographically invalid one — ends
the request with status 412 and never calls the continuation. -/
theorem claim_C6_failure_412 (crypto : Crypto) (cfg : Config) (req : Req) (sess : Session)
    (s : String) (sess1 : Session) (tr0 : List Ev)
    (hc : Crypto.Sound crypto)
    (hsec : obtainSecret crypto cfg.SESSION_KEY sess = (Except.ok (s, sess1), tr0))
    (hm : cfg.IGNORED_METHODS.contains (jsToLower req.method) = false)
    (hi : ∀ p, cfg.ignore = some p → p req (issuedRes cfg crypto s) = false) :
    (crypto.verify s (cfg.getToken req (issuedRes cfg crypto s)) = false →
       (middleware cfg crypto req sess).outcome = Outcome.status 412 ∧
       Ev.nextCall ∉ (middleware cfg crypto req sess).trace) ∧
    (cfg.getToken req (issuedRes cfg crypto s) = none →
       crypto.verify s (cfg.getToken req (issuedRes cfg crypto s)) = false) ∧
    (cfg.getToken req (issuedRes cfg crypto s) = some "" →
       crypto.verify s (cfg.getToken req (issuedRes cfg crypto s)) = false) := by
  obtain ⟨hv1, hv2, hv3, hv4, hv5⟩ := hc
  have htr : tr0 = [Ev.sessionGet cfg.SESSION_KEY] ∨
      tr0 = [Ev.sessionGet cfg.SESSION_KEY,
             Ev.sessionSet cfg.SESSION_KEY crypto.secretSync] := by
    have h2 := obtainSecret_trace_shape crypto cfg.SESSION_KEY sess
    rw [hsec] at h2
    simpa using h2
  refine ⟨?_, fun hext => by rw [hext]; exact hv2 s, fun hext => by rw [hext]; exact hv3 s⟩
  intro hvb
  rw [middleware_validate cfg crypto req sess s sess1 tr0 hsec hm hi]
  constructor
  · rw [verifyStep_outcome, hvb]
    simp
  · rw [verifyStep_trace, hvb]
    rcases htr with h | h <;> subst h <;> rcases hig : cfg.ignore with _ | p <;>
      simp [hig]

theorem claim_C6_failure_412_witness :
    (middleware exCfg exCrypto exReqNoTok exSess).outcome = Outcome.status 412 :=
  ((claim_C6_failure_412 exCrypto exCfg exReqNoTok exSess "sec0" exSess
    [Ev.sessionGet "XSRF-SECRET"] exCrypto_sound rfl rfl
    (fun p hp => by rw [exCfg_ignore] at hp; exact Option.noConfusion hp)).1 rfl).1

/-- Claim C3: the bypass rules are evaluated in strict order.  A matching
method bypass calls the continuation without ever evaluating the ignore
predicate, the token extraction or the verification; a matching ignore
predicate (method not ignored) calls the continuation after evaluating
the predicate but never extraction or verification. -/
theorem claim_C3_rule_order (crypto : Crypto) (cfg : Config) (req : Req) (sess : Session)
    (s : String) (sess1 : Session) (tr0 : List Ev)
    (hsec : obtainSecret crypto cfg.SESSION_KEY sess = (Except.ok (s, sess1), tr0)) :
    (cfg.IGNORED_METHODS.contains (jsToLower req.method) = true →
       (middleware cfg crypto req sess).outcome = Outcome.next ∧
       Ev.ignoreCall ∉ (middleware cfg crypto req sess).trace ∧
       Ev.getTokenCall ∉ (middleware cfg crypto req sess).trace ∧
       Ev.verifyCall ∉ (middleware cfg crypto req sess).trace) ∧
    (∀ p, cfg.IGNORED_METHODS.contains (jsToLower req.method) = false →
       cfg.ignore = some p → p req (issuedRes cfg crypto s) = true →
       (middleware cfg crypto req sess).outcome = Outcome.next ∧
       Ev.ignoreCall ∈ (middleware cfg crypto req sess).trace ∧
       Ev.getTokenCall ∉ (middleware cfg crypto req sess).trace ∧
       Ev.verifyCall ∉ (middleware cfg crypto req sess).trace) := by
  have htr : tr0 = [Ev.sessionGet cfg.SESSION_KEY] ∨
      tr0 = [Ev.sessionGet cfg.SESSION_KEY,
             Ev.sessionSet cfg.SESSION_KEY crypto.secretSync] := by
    have h2 := obtainSecret_trace_shape crypto cfg.SESSION_KEY sess
    rw [hsec] at h2
    simpa using h2
  constructor
  · intro hm
    rw [middleware_bypass_method cfg crypto req sess s sess1 tr0 hsec hm]
    rcases htr with h | h <;> subst h <;> simp
  · intro p hm hp hpt
    rw [middleware_bypass_ignore cfg crypto req sess s sess1 tr0 p hsec hm hp hpt]
    rcases htr with h | h <;> subst h <;> simp

theorem claim_C3_rule_order_witness :
    Ev.ignoreCall ∉ (middleware exCfg exCrypto exReqGet exSess).trace :=
  ((claim_C3_rule_order exCrypto exCfg exReqGet exSess "sec0" exSess
    [Ev.sessionGet "XSRF-SECRET"] rfl).1 rfl).2.1

/-- Claim C4: whenever secret resolution succeeds, the token created from
the resolved secret is published on the rendering context and as the
configured cookie, in that order, immediately after resolution and before
any bypass or verification event, whatever the final outcome. -/
theorem claim_C4_publication (crypto : Crypto) (cfg : Config) (req : Req) (sess : Session)
    (s : String) (sess1 : Session) (tr0 : List Ev)
    (hsec : obtainSecret crypto cfg.SESSION_KEY sess = (Except.ok (s, sess1), tr0)) :
    (middleware cfg crypto req sess).res.locals = some (crypto.create s) ∧
    (middleware cfg crypto req sess).res.cookies = [(cfg.COOKIE_NAME, crypto.create s)] ∧
    ∃ rest, (middleware cfg crypto req sess).trace =
      tr0 ++ [Ev.localsSet (crypto.create s),
              Ev.cookieSet cfg.COOKIE_NAME (crypto.create s)] ++ rest := by
  refine ⟨?_, ?_, middleware_trace_prefix cfg crypto req sess s sess1 tr0 hsec⟩
  · rw [middleware_res_ok cfg crypto req sess s sess1 tr0 hsec]
    rfl
  · rw [middleware_res_ok cfg crypto req sess s sess1 tr0 hsec]
    rfl

theorem claim_C4_publication_witness :
    (middleware exCfg exCrypto exReqNoTok exSess).res.locals =
      some (exCrypto.create "sec0") :=
  (claim_C4_publication exCrypto exCfg exReqNoTok exSess "sec0" exSess
    [Ev.sessionGet "XSRF-SECRET"] rfl).1

/-- A configuration whose ignored-methods entries are not lowercase. -/
def upperCfg : Config := resolveOptions { ignoredMethods := JsArr.arr ["GET"] }

/-- A GET request, capitalized as on the wire. -/
def exReqGETcaps : Req := { method := "GET", headers := [] }

/-- Claim C2 counterexample: with configured ignored methods ['GET'], the
method 'GET' is a member of the configured set under case-insensitive
comparison, yet the request is not bypassed: verification runs and the
request ends with status 412. -/
theorem claim_C2_counterexample :
    (upperCfg.IGNORED_METHODS.any fun m => jsToLower m == jsToLower exReqGETcaps.method) =
      true ∧
    (middleware upperCfg exCrypto exReqGETcaps exSess).outcome = Outcome.status 412 ∧
    Ev.verifyCall ∈ (middleware upperCfg exCrypto exReqGETcaps exSess).trace := by
  decide

/-- Claim C2 (amended): the request's method is lowercased and compared
verbatim against the configured entries, so the bypass holds for every
letter-casing of the request's method, but only when the matching
configured entry is itself lowercase. -/
theorem claim_C2_amended (crypto : Crypto) (cfg : Config) (req : Req) (sess : Session)
    (s : String) (sess1 : Session) (tr0 : List Ev)
    (hsec : obtainSecret crypto cfg.SESSION_KEY sess = (Except.ok (s, sess1), tr0))
    (hm : cfg.IGNORED_METHODS.contains (jsToLower req.method) = true) :
    (middleware cfg crypto req sess).outcome = Outcome.next ∧
    Ev.getTokenCall ∉ (middleware cfg crypto req sess).trace ∧
    Ev.verifyCall ∉ (middleware cfg crypto req sess).trace := by
  have htr : tr0 = [Ev.sessionGet cfg.SESSION_KEY] ∨
      tr0 = [Ev.sessionGet cfg.SESSION_KEY,
             Ev.sessionSet cfg.SESSION_KEY crypto.secretSync] := by
    have h2 := obtainSecret_trace_shape crypto cfg.SESSION_KEY sess
    rw [hsec] at h2
    simpa using h2
  rw [middleware_bypass_method cfg crypto req sess s sess1 tr0 hsec hm]
  rcases htr with h | h <;> subst h <;> simp

theorem claim_C2_amended_witness :
    (middleware exCfg exCrypto exReqGet exSess).outcome = Outcome.next :=
  (claim_C2_amended exCrypto exCfg exReqGet exSess "sec0" exSess
    [Ev.sessionGet "XSRF-SECRET"] rfl rfl).1

/-- Claim C7: the Guard never overwrites an existing truthy secret: such
requests perform zero session writes and resolution returns the stored
value with the session unchanged; a session without a secret gets exactly
one write, after which the generated secret is stored under the key and a
subsequent request performs zero writes. -/
theorem claim_C7_no_overwrite (crypto : Crypto) (cfg : Config) (req : Req) (sess : Session)
    (hc : Crypto.Sound crypto) :
    (∀ v, sess.readErr = none → List.lookup cfg.SESSION_KEY sess.data = some v → v ≠ "" →
       countSets (middleware cfg crypto req sess).trace = 0 ∧
       (middleware cfg crypto req sess).session = sess ∧
       obtainSecret crypto cfg.SESSION_KEY sess =
         (Except.ok (v, sess), [Ev.sessionGet cfg.SESSION_KEY])) ∧
    (sess.readErr = none → sess.writeErr = none →
     List.lookup cfg.SESSION_KEY sess.data = none →
       countSets (middleware cfg crypto req sess).trace = 1 ∧
       List.lookup cfg.SESSION_KEY (middleware cfg crypto req sess).session.data =
         some crypto.secretSync ∧
       countSets (middleware cfg crypto req (middleware cfg crypto req sess).session).trace
         = 0) := by
  constructor
  · intro v hr hl hv
    have hsec := obtainSecret_stored crypto cfg.SESSION_KEY sess v hr hl hv
    refine ⟨?_, middleware_session cfg crypto req sess v sess
      [Ev.sessionGet cfg.SESSION_KEY] hsec, hsec⟩
    rw [middleware_countSets, hsec]
    rfl
  · intro hr hw hl
    have hsec := obtainSecret_fresh crypto cfg.SESSION_KEY sess hr hl hw
    have hses := middleware_session cfg crypto req sess crypto.secretSync
      (sess.setVal cfg.SESSION_KEY crypto.secretSync)
      [Ev.sessionGet cfg.SESSION_KEY, Ev.sessionSet cfg.SESSION_KEY crypto.secretSync] hsec
    refine ⟨?_, ?_, ?_⟩
    · rw [middleware_countSets, hsec]
      rfl
    · rw [hses]
      exact lookup_setVal sess cfg.SESSION_KEY crypto.secretSync
    · rw [hses, middleware_countSets,
        obtainSecret_stored crypto cfg.SESSION_KEY
          (sess.setVal cfg.SESSION_KEY crypto.secretSync) crypto.secretSync hr
          (lookup_setVal sess cfg.SESSION_KEY crypto.secretSync) hc.2.2.2.2]
      rfl

theorem claim_C7_no_overwrite_witness :
    countSets (middleware exCfg exCrypto exReqNoTok exSessEmpty).trace = 1 :=
  ((claim_C7_no_overwrite exCrypto exCfg exReqNoTok exSessEmpty exCrypto_sound).2
    rfl rfl rfl).1
